import Mathlib

/-!
Verification of the collaborative-document backend (`backend/document_store.py`
and `backend/server.py`): the shared `DocumentStore` (content, monotonic
version counter, leased editor lock with lazy expiry) and the session
handler / broadcast logic of the WebSocket server.

Shallow embedding conventions:
* every store method runs under the store's single mutex, so each method is
  an atomic state transition, modelled as a pure function
  `DocumentStore → args → DocumentStore × result`;
* the wall clock (`time.time()`) is passed explicitly as a rational `now`;
* a Python `dict.get(key)` on a JSON object is an `Option` field;
* Python truthiness of an `Optional[str]` (both `None` and `""` are falsy)
  is modelled explicitly by `strTruthy`.
-/

namespace Colab

/-- Python truthiness of an `Optional[str]` value: `None` and `""` are falsy,
every other string is truthy. -/
def strTruthy : Option String → Bool
  | none => false
  | some s => s != ""

/-- State of `DocumentStore` (document_store.py): the document text, the
version counter, the editor-lock holder (`None` = unlocked), the absolute
expiry time of the current lease, and the configured lease duration. -/
structure DocumentStore where
  document : String
  version : Nat
  editor_lock_holder : Option String
  editor_lock_expires : ℚ
  lock_timeout : ℚ
deriving Repr, DecidableEq

/-- `DocumentStore.__init__(lock_timeout)`: empty document, version 0,
unlocked, expiry 0. -/
def DocumentStore.init (lock_timeout : ℚ) : DocumentStore :=
  { document := ""
    version := 0
    editor_lock_holder := none
    editor_lock_expires := 0
    lock_timeout := lock_timeout }

/-- `DocumentStore.get_document`: return the `(content, version)` pair. -/
def DocumentStore.get_document (s : DocumentStore) : String × Nat :=
  (s.document, s.version)

/-- `DocumentStore.update_document`: replace the whole content, increment the
version, return the updated store and the new version. -/
def DocumentStore.update_document (s : DocumentStore) (new_content : String) :
    DocumentStore × Nat :=
  let s := { s with document := new_content, version := s.version + 1 }
  (s, s.version)

/-- `DocumentStore.try_acquire_editor_lock`: first lazily clear an expired
lock (`if self._editor_lock_holder and now > self._editor_lock_expires`),
then grant the lock (fresh expiry) when it is free or already held by this
client; otherwise return `false` without mutating anything. -/
def DocumentStore.try_acquire_editor_lock (s : DocumentStore)
    (client_id : String) (now : ℚ) : DocumentStore × Bool :=
  let s :=
    if strTruthy s.editor_lock_holder ∧ s.editor_lock_expires < now then
      { s with editor_lock_holder := none }
    else s
  if ¬ strTruthy s.editor_lock_holder ∨ s.editor_lock_holder = some client_id then
    ({ s with editor_lock_holder := some client_id
              editor_lock_expires := now + s.lock_timeout }, true)
  else
    (s, false)

/-- `DocumentStore.release_editor_lock`: clear holder and expiry when held by
this client, otherwise do nothing. -/
def DocumentStore.release_editor_lock (s : DocumentStore) (client_id : String) :
    DocumentStore :=
  if s.editor_lock_holder = some client_id then
    { s with editor_lock_holder := none, editor_lock_expires := 0 }
  else
    s

/-- `DocumentStore.renew_editor_lock`: extend the lease only when this client
is the holder and the lease has not yet expired (`now <= expires`). -/
def DocumentStore.renew_editor_lock (s : DocumentStore) (client_id : String)
    (now : ℚ) : DocumentStore × Bool :=
  if s.editor_lock_holder = some client_id ∧ now ≤ s.editor_lock_expires then
    ({ s with editor_lock_expires := now + s.lock_timeout }, true)
  else
    (s, false)

/-- `DocumentStore.get_lock_status`: lazily clear an expired lock, then return
`(lock_holder, lock_holder is not None)`. -/
def DocumentStore.get_lock_status (s : DocumentStore) (now : ℚ) :
    DocumentStore × (Option String × Bool) :=
  let s :=
    if strTruthy s.editor_lock_holder ∧ s.editor_lock_expires < now then
      { s with editor_lock_holder := none }
    else s
  (s, (s.editor_lock_holder, s.editor_lock_holder.isSome))

/-- A JSON object restricted to the two keys the store and the edit handler
read: `"type"` and `"content"`; `none` models a missing key. -/
structure JsonMsg where
  jtype : Option String
  content : Option String
deriving Repr, DecidableEq

/-- `DocumentStore.apply_edit`: for a `{"type": "replace"}` operation replace
the content with `operation.get("content", "")` and return the fresh
`(content, version)`; for any other operation type, a pure read. -/
def DocumentStore.apply_edit (s : DocumentStore) (operation : JsonMsg) :
    DocumentStore × (String × Nat) :=
  if operation.jtype = some "replace" then
    let u := s.update_document (operation.content.getD "")
    (u.1, (u.1.document, u.2))
  else
    (s, (s.document, s.version))

/-! ### Server side (server.py)

Connection handles are modelled as natural numbers (Python compares them by
identity, `ws is not exclude`); the `ClientRegistry` mapping is an
association list `client_id → handle`. -/

/-- The outbound JSON messages of server.py that the verified paths emit, as
a closed datatype. -/
inductive OutMsg where
  | ack (version : Nat)
  | errorMsg (message : String) (lock_holder : Option String)
  | documentMsg (content : String) (version : Nat) (clients : Nat)
      (lock_holder : Option String) (is_locked : Bool)
  | lockStatus (is_locked : Bool) (lock_holder : Option String)
deriving Repr, DecidableEq

/-- `ClientRegistry.remove`: `self._clients.pop(client_id, None)`. -/
def registryRemove (reg : List (String × Nat)) (client_id : String) :
    List (String × Nat) :=
  reg.filter (fun p => p.1 != client_id)

/-- The target list of `broadcast`:
`[ws for ws in snapshot.values() if ws is not exclude]`. -/
def broadcastTargets (snapshot : List (String × Nat)) (exclude : Option Nat) :
    List Nat :=
  (snapshot.map Prod.snd).filter (fun ws => some ws != exclude)

/-- The send loop of `broadcast`: each target is tried independently
(`try: ws.send(message) except Exception: pass`); `sendOk ws = false` models
`ws.send` raising, which is swallowed and does not stop the loop. Returns
the handles whose send succeeded. -/
def sendLoop (sendOk : Nat → Bool) : List Nat → List Nat
  | [] => []
  | ws :: rest =>
      if sendOk ws then ws :: sendLoop sendOk rest else sendLoop sendOk rest

/-- `broadcast(message, exclude)`: snapshot the registry, drop the excluded
handle, attempt every remaining send independently; returns the handles that
actually received the message. This is a total function: no send failure
propagates to the caller. -/
def broadcast (snapshot : List (String × Nat)) (exclude : Option Nat)
    (sendOk : Nat → Bool) : List Nat :=
  sendLoop sendOk (broadcastTargets snapshot exclude)

/-- The `edit` branch of `handle_client` (server.py lines 115-136): read the
lock status; a non-holder while locked gets an `edit_locked` error and
nothing else happens; otherwise replace the document with
`message.get("content", "")`, ack with the new version and produce the
`document` broadcast payload (sent to everyone but the sender). Returns
(updated store, reply to sender, optional broadcast payload). -/
def handleEdit (s : DocumentStore) (client_id : String) (message : JsonMsg)
    (now : ℚ) (numClients : Nat) :
    DocumentStore × OutMsg × Option OutMsg :=
  let r := s.get_lock_status now
  let s := r.1
  let lock_holder := r.2.1
  let is_locked := r.2.2
  if is_locked ∧ lock_holder ≠ some client_id then
    (s, OutMsg.errorMsg "edit_locked" lock_holder, none)
  else
    let new_content := message.content.getD ""
    let u := s.update_document new_content
    (u.1, OutMsg.ack u.2,
      some (OutMsg.documentMsg new_content u.2 numClients lock_holder is_locked))

/-- The `finally` block of `handle_client` (server.py lines 142-151):
release any lock held by this client, broadcast
`lock_status{is_locked: false, lock_holder: null}` to every registered handle
(no exclusion; the registry is snapshotted before removal), then remove the
client from the registry. Returns (store, registry after removal, broadcast
payload, broadcast target handles). -/
def teardown (store : DocumentStore) (reg : List (String × Nat))
    (client_id : String) :
    DocumentStore × List (String × Nat) × OutMsg × List Nat :=
  let store := store.release_editor_lock client_id
  let payload := OutMsg.lockStatus false none
  let targets := broadcastTargets reg none
  let reg2 := registryRemove reg client_id
  (store, reg2, payload, targets)

/-- A sequence of `update_document` calls, one per list element. -/
def replaceAll (s : DocumentStore) (cs : List String) : DocumentStore :=
  cs.foldl (fun s c => (s.update_document c).1) s

theorem replaceAll_version (cs : List String) :
    ∀ s : DocumentStore, (replaceAll s cs).version = s.version + cs.length := by
  induction cs with
  | nil => intro s; simp [replaceAll]
  | cons c cs ih =>
      intro s
      have h := ih ((s.update_document c).1)
      simp only [replaceAll, List.foldl_cons] at h ⊢
      rw [h]
      simp [DocumentStore.update_document]
      omega

/-- C1: starting from a freshly constructed store, every `update_document`
call succeeds (it is a total function, independent of lock state), the
version starts at 0, each call increments it by exactly 1 and returns the new
version, and after N replacements the version equals N. -/
theorem update_document_version_counts (t : ℚ) (cs : List String) :
    (DocumentStore.init t).version = 0 ∧
    (replaceAll (DocumentStore.init t) cs).version = cs.length ∧
    (∀ (s : DocumentStore) (c : String),
      ((s.update_document c).1).version = s.version + 1 ∧
      (s.update_document c).2 = s.version + 1) := by
  refine ⟨rfl, ?_, ?_⟩
  · rw [replaceAll_version]
    simp [DocumentStore.init]
  · intro s c
    exact ⟨rfl, rfl⟩

/-- C2: while a different client A holds an unexpired lock, `tryAcquireLock(B)`
returns false and leaves the whole store (holder and expiry included)
unchanged; once A's lease has expired, `tryAcquireLock(B)` returns true and B
becomes the holder with a fresh expiry, even though A never released. -/
theorem try_acquire_contention (s : DocumentStore) (A B : String) (now : ℚ)
    (hA : s.editor_lock_holder = some A) (hAne : A ≠ "") (hBA : B ≠ A) :
    (now ≤ s.editor_lock_expires →
      s.try_acquire_editor_lock B now = (s, false)) ∧
    (s.editor_lock_expires < now →
      (s.try_acquire_editor_lock B now).2 = true ∧
      (s.try_acquire_editor_lock B now).1.editor_lock_holder = some B ∧
      (s.try_acquire_editor_lock B now).1.editor_lock_expires
        = now + s.lock_timeout) := by
  have htruthy : strTruthy s.editor_lock_holder = true := by
    simp [hA, strTruthy, hAne]
  constructor
  · intro hle
    unfold DocumentStore.try_acquire_editor_lock
    have h1 : ¬ (strTruthy s.editor_lock_holder = true ∧
        s.editor_lock_expires < now) := by
      intro h
      exact absurd h.2 (not_lt.mpr hle)
    rw [if_neg h1]
    have h2 : ¬ (¬ strTruthy s.editor_lock_holder = true ∨
        s.editor_lock_holder = some B) := by
      rintro (h | h)
      · exact h htruthy
      · rw [hA] at h
        exact hBA (Option.some_inj.mp h).symm
    rw [if_neg h2]
  · intro hlt
    unfold DocumentStore.try_acquire_editor_lock
    split_ifs with h1
    · exact ⟨rfl, rfl, rfl⟩
    · exact absurd ⟨htruthy, hlt⟩ h1

/-- C4: `tryAcquireLock` is idempotent for the current holder: when A holds an
unexpired lock (whose expiry was granted no later than `now`, as every lease
is), a second `tryAcquireLock(A)` returns true, keeps A as holder and resets
the expiry to `now + lockTimeoutDuration`, which is at least the old expiry. -/
theorem try_acquire_idempotent (s : DocumentStore) (A : String) (now : ℚ)
    (hA : s.editor_lock_holder = some A) (hexp : now ≤ s.editor_lock_expires)
    (hfresh : s.editor_lock_expires ≤ now + s.lock_timeout) :
    (s.try_acquire_editor_lock A now).2 = true ∧
    (s.try_acquire_editor_lock A now).1.editor_lock_holder = some A ∧
    (s.try_acquire_editor_lock A now).1.editor_lock_expires
      = now + s.lock_timeout ∧
    s.editor_lock_expires
      ≤ (s.try_acquire_editor_lock A now).1.editor_lock_expires := by
  unfold DocumentStore.try_acquire_editor_lock
  have h1 : ¬ (strTruthy s.editor_lock_holder = true ∧
      s.editor_lock_expires < now) := by
    intro h
    exact absurd h.2 (not_lt.mpr hexp)
  rw [if_neg h1]
  rw [if_pos (Or.inr hA)]
  exact ⟨rfl, rfl, rfl, hfresh⟩

/-- C5: `renewLock(A)` on an already-expired lease returns false and changes
nothing (the store still nominally shows A as holder); it returns true and
extends the expiry to `now + lockTimeoutDuration` when A holds the lock and
the lease is unexpired; and it only ever returns true for the current holder
of an unexpired lease. -/
theorem renew_lock_spec (s : DocumentStore) (A : String) (now : ℚ)
    (hA : s.editor_lock_holder = some A) :
    (s.editor_lock_expires < now →
      s.renew_editor_lock A now = (s, false)) ∧
    (now ≤ s.editor_lock_expires →
      (s.renew_editor_lock A now).2 = true ∧
      (s.renew_editor_lock A now).1.editor_lock_holder = some A ∧
      (s.renew_editor_lock A now).1.editor_lock_expires
        = now + s.lock_timeout) ∧
    (∀ c : String, (s.renew_editor_lock c now).2 = true →
      s.editor_lock_holder = some c ∧ now ≤ s.editor_lock_expires) := by
  refine ⟨?_, ?_, ?_⟩
  · intro hlt
    unfold DocumentStore.renew_editor_lock
    rw [if_neg]
    intro h
    exact absurd hlt (not_lt.mpr h.2)
  · intro hle
    unfold DocumentStore.renew_editor_lock
    rw [if_pos ⟨hA, hle⟩]
    exact ⟨rfl, hA, rfl⟩
  · intro c
    unfold DocumentStore.renew_editor_lock
    split_ifs with h
    · intro _
      exact h
    · intro hfalse
      exact absurd hfalse (by simp)

theorem release_nonholder (s : DocumentStore) (A B : String)
    (hA : s.editor_lock_holder = some A) (hBA : B ≠ A) :
    s.release_editor_lock B = s := by
  unfold DocumentStore.release_editor_lock
  rw [if_neg]
  rw [hA]
  simp
  exact Ne.symm hBA

theorem get_lock_status_unexpired (s : DocumentStore) (A : String) (now : ℚ)
    (hA : s.editor_lock_holder = some A) (hexp : now ≤ s.editor_lock_expires) :
    s.get_lock_status now = (s, (some A, true)) := by
  unfold DocumentStore.get_lock_status
  rw [if_neg]
  · show (s, s.editor_lock_holder, s.editor_lock_holder.isSome)
      = (s, some A, true)
    rw [hA]
    rfl
  · intro h
    exact absurd h.2 (not_lt.mpr hexp)

/-- C6: `releaseLock` by a non-holder is a no-op and not an error: with the
lock held by A and B ≠ A, `releaseLock(B)` changes no field of the store, and
a subsequent `lockStatus()` before A's lease expires still reports A as
holder with the lock held (and clears nothing). -/
theorem release_by_nonholder_noop (s : DocumentStore) (A B : String) (now : ℚ)
    (hA : s.editor_lock_holder = some A) (hBA : B ≠ A)
    (hexp : now ≤ s.editor_lock_expires) :
    s.release_editor_lock B = s ∧
    ((s.release_editor_lock B).get_lock_status now).2 = (some A, true) ∧
    ((s.release_editor_lock B).get_lock_status now).1 = s := by
  rw [release_nonholder s A B hA hBA, get_lock_status_unexpired s A now hA hexp]
  exact ⟨rfl, rfl, rfl⟩

/-- C3: an `edit` message from a client that is not the holder of a held,
unexpired lock is answered with `error{message: "edit_locked"}` carrying the
current holder, the store (content and version included) is unchanged, and no
`document` broadcast payload is produced. -/
theorem handleEdit_locked_rejects (s : DocumentStore) (c h : String)
    (msg : JsonMsg) (now : ℚ) (n : Nat)
    (hh : s.editor_lock_holder = some h) (hne : h ≠ c)
    (hexp : now ≤ s.editor_lock_expires) :
    handleEdit s c msg now n
      = (s, OutMsg.errorMsg "edit_locked" (some h), none) := by
  unfold handleEdit
  rw [get_lock_status_unexpired s h now hh hexp]
  dsimp only
  split_ifs with hc
  · rfl
  · exact absurd ⟨rfl, fun heq => hne (Option.some_inj.mp heq)⟩ hc

/-- C7: session teardown calls `releaseLock(clientId)` (a no-op when this
session is not the holder), produces the unconditional
`lock_status{is_locked: false, lock_holder: null}` broadcast whose targets
are exactly the registered handles (no exclusion, snapshot taken before
removal), and then removes exactly this session's entries from the
registry. -/
theorem teardown_spec (store : DocumentStore) (reg : List (String × Nat))
    (c A : String) (hA : store.editor_lock_holder = some A) (hne : A ≠ c) :
    (teardown store reg c).1 = store ∧
    (teardown store reg c).2.2.1 = OutMsg.lockStatus false none ∧
    (∀ ws : Nat, ws ∈ (teardown store reg c).2.2.2 ↔
      ∃ id, (id, ws) ∈ reg) ∧
    (∀ p : String × Nat, p ∈ (teardown store reg c).2.1 ↔
      p ∈ reg ∧ p.1 ≠ c) := by
  refine ⟨?_, rfl, ?_, ?_⟩
  · show store.release_editor_lock c = store
    exact release_nonholder store A c hA (Ne.symm hne)
  · intro ws
    show ws ∈ broadcastTargets reg none ↔ _
    simp only [broadcastTargets, List.mem_filter, List.mem_map]
    constructor
    · rintro ⟨⟨⟨id, w⟩, hm, rfl⟩, -⟩
      exact ⟨id, hm⟩
    · rintro ⟨id, hm⟩
      exact ⟨⟨⟨id, ws⟩, hm, rfl⟩, by simp⟩
  · intro p
    show p ∈ registryRemove reg c ↔ _
    simp [registryRemove, List.mem_filter, bne_iff_ne]

theorem mem_sendLoop (sendOk : Nat → Bool) (l : List Nat) (ws : Nat) :
    ws ∈ sendLoop sendOk l ↔ ws ∈ l ∧ sendOk ws = true := by
  induction l with
  | nil => simp [sendLoop]
  | cons a rest ih =>
      by_cases h : sendOk a = true
      · simp only [sendLoop, if_pos h, List.mem_cons, ih]
        constructor
        · rintro (rfl | ⟨hm, hok⟩)
          · exact ⟨Or.inl rfl, h⟩
          · exact ⟨Or.inr hm, hok⟩
        · rintro ⟨rfl | hm, hok⟩
          · exact Or.inl rfl
          · exact Or.inr ⟨hm, hok⟩
      · simp only [sendLoop, if_neg h, List.mem_cons, ih]
        constructor
        · rintro ⟨hm, hok⟩
          exact ⟨Or.inr hm, hok⟩
        · rintro ⟨rfl | hm, hok⟩
          · exact absurd hok h
          · exact ⟨hm, hok⟩

/-- C8: `broadcast` attempts a send to every handle of the registry snapshot
except the excluded one; a handle receives the message exactly when it is a
target and its own send succeeds, so a send failure on one handle never
prevents delivery to the remaining handles (and `broadcast` is a total
function: no failure propagates to the caller). -/
theorem broadcast_delivers (snapshot : List (String × Nat))
    (exclude : Option Nat) (sendOk : Nat → Bool) :
    (∀ ws : Nat, ws ∈ broadcastTargets snapshot exclude ↔
      ((∃ id, (id, ws) ∈ snapshot) ∧ some ws ≠ exclude)) ∧
    (∀ ws : Nat, ws ∈ broadcast snapshot exclude sendOk ↔
      (ws ∈ broadcastTargets snapshot exclude ∧ sendOk ws = true)) ∧
    (∀ (id : String) (ws : Nat), (id, ws) ∈ snapshot → some ws ≠ exclude →
      sendOk ws = true → ws ∈ broadcast snapshot exclude sendOk) := by
  have htgt : ∀ ws : Nat, ws ∈ broadcastTargets snapshot exclude ↔
      ((∃ id, (id, ws) ∈ snapshot) ∧ some ws ≠ exclude) := by
    intro ws
    simp only [broadcastTargets, List.mem_filter, List.mem_map, bne_iff_ne]
    constructor
    · rintro ⟨⟨⟨id, w⟩, hm, rfl⟩, hx⟩
      exact ⟨⟨id, hm⟩, hx⟩
    · rintro ⟨⟨id, hm⟩, hx⟩
      exact ⟨⟨⟨id, ws⟩, hm, rfl⟩, hx⟩
  have hdel : ∀ ws : Nat, ws ∈ broadcast snapshot exclude sendOk ↔
      (ws ∈ broadcastTargets snapshot exclude ∧ sendOk ws = true) :=
    fun ws => mem_sendLoop sendOk (broadcastTargets snapshot exclude) ws
  refine ⟨htgt, hdel, ?_⟩
  intro id ws hm hx hok
  exact (hdel ws).mpr ⟨(htgt ws).mpr ⟨⟨id, hm⟩, hx⟩, hok⟩

/-- C9: `apply_edit` on any operation whose `"type"` is not `"replace"`
(a missing type included) is a pure read: content and version are unchanged
and the current `(content, version)` pair is returned. -/
theorem apply_edit_non_replace (s : DocumentStore) (op : JsonMsg)
    (hop : op.jtype ≠ some "replace") :
    s.apply_edit op = (s, (s.document, s.version)) := by
  unfold DocumentStore.apply_edit
  rw [if_neg hop]

/-- C10: an `edit` message with no `"content"` key is not rejected: with the
document unlocked, the handler substitutes the empty string, replaces the
document by `""`, increments the version by 1, acks normally and broadcasts
the `document` payload; likewise `apply_edit` on a `"replace"` operation
without `"content"` replaces the document by `""` and increments the
version. -/
theorem edit_missing_content_defaults_empty (s : DocumentStore) (c : String)
    (now : ℚ) (n : Nat) (msg : JsonMsg)
    (hc : msg.content = none) (hfree : s.editor_lock_holder = none) :
    handleEdit s c msg now n
      = ({ s with document := "", version := s.version + 1 },
          OutMsg.ack (s.version + 1),
          some (OutMsg.documentMsg "" (s.version + 1) n none false)) ∧
    (∀ op : JsonMsg, op.jtype = some "replace" → op.content = none →
      s.apply_edit op
        = ({ s with document := "", version := s.version + 1 },
            ("", s.version + 1))) := by
  have hstat : s.get_lock_status now = (s, (none, false)) := by
    unfold DocumentStore.get_lock_status
    rw [if_neg]
    · show (s, s.editor_lock_holder, s.editor_lock_holder.isSome)
        = (s, none, false)
      rw [hfree]
      rfl
    · intro hcon
      rw [hfree] at hcon
      exact Bool.noConfusion hcon.1
  constructor
  · unfold handleEdit
    rw [hstat]
    dsimp only
    rw [if_neg (fun hcon => Bool.noConfusion hcon.1)]
    rw [hc]
    rfl
  · intro op h1 h2
    unfold DocumentStore.apply_edit
    rw [if_pos h1, h2]
    rfl

theorem try_acquire_contention_witness :
    (DocumentStore.mk "d" 1 (some "a") 10 3).try_acquire_editor_lock "b" 4
      = (DocumentStore.mk "d" 1 (some "a") 10 3, false) ∧
    ((DocumentStore.mk "d" 1 (some "a") 10 3).try_acquire_editor_lock "b" 20).2
      = true ∧
    ((DocumentStore.mk "d" 1 (some "a") 10 3).try_acquire_editor_lock
        "b" 20).1.editor_lock_holder = some "b" := by
  have h1 := try_acquire_contention (DocumentStore.mk "d" 1 (some "a") 10 3)
    "a" "b" 4 rfl (by decide) (by decide)
  have h2 := try_acquire_contention (DocumentStore.mk "d" 1 (some "a") 10 3)
    "a" "b" 20 rfl (by decide) (by decide)
  exact ⟨h1.1 (by show (4 : ℚ) ≤ 10; norm_num),
    (h2.2 (by show (10 : ℚ) < 20; norm_num)).1,
    (h2.2 (by show (10 : ℚ) < 20; norm_num)).2.1⟩

theorem handleEdit_locked_rejects_witness :
    handleEdit (DocumentStore.mk "d" 1 (some "a") 10 3) "b"
        (JsonMsg.mk (some "edit") (some "x")) 4 2
      = (DocumentStore.mk "d" 1 (some "a") 10 3,
          OutMsg.errorMsg "edit_locked" (some "a"), none) :=
  handleEdit_locked_rejects (DocumentStore.mk "d" 1 (some "a") 10 3) "b" "a"
    (JsonMsg.mk (some "edit") (some "x")) 4 2 rfl (by decide)
    (by show (4 : ℚ) ≤ 10; norm_num)

theorem try_acquire_idempotent_witness :
    ((DocumentStore.mk "d" 1 (some "a") 10 3).try_acquire_editor_lock "a" 8).2
      = true ∧
    ((DocumentStore.mk "d" 1 (some "a") 10 3).try_acquire_editor_lock
        "a" 8).1.editor_lock_holder = some "a" ∧
    ((DocumentStore.mk "d" 1 (some "a") 10 3).try_acquire_editor_lock
        "a" 8).1.editor_lock_expires = 8 + 3 ∧
    (10 : ℚ) ≤ ((DocumentStore.mk "d" 1 (some "a") 10 3).try_acquire_editor_lock
        "a" 8).1.editor_lock_expires := by
  have h := try_acquire_idempotent (DocumentStore.mk "d" 1 (some "a") 10 3)
    "a" 8 rfl (by show (8 : ℚ) ≤ 10; norm_num)
    (by show (10 : ℚ) ≤ 8 + 3; norm_num)
  exact ⟨h.1, h.2.1, h.2.2.1, h.2.2.2⟩

theorem renew_lock_spec_witness :
    (DocumentStore.mk "d" 1 (some "a") 10 3).renew_editor_lock "a" 20
      = (DocumentStore.mk "d" 1 (some "a") 10 3, false) ∧
    ((DocumentStore.mk "d" 1 (some "a") 10 3).renew_editor_lock "a" 8).2
      = true ∧
    ((DocumentStore.mk "d" 1 (some "a") 10 3).renew_editor_lock
        "a" 8).1.editor_lock_expires = 8 + 3 := by
  have h := renew_lock_spec (DocumentStore.mk "d" 1 (some "a") 10 3) "a" 20 rfl
  have h2 := renew_lock_spec (DocumentStore.mk "d" 1 (some "a") 10 3) "a" 8 rfl
  exact ⟨h.1 (by show (10 : ℚ) < 20; norm_num),
    (h2.2.1 (by show (8 : ℚ) ≤ 10; norm_num)).1,
    (h2.2.1 (by show (8 : ℚ) ≤ 10; norm_num)).2.2⟩

theorem release_by_nonholder_noop_witness :
    (DocumentStore.mk "d" 1 (some "a") 10 3).release_editor_lock "b"
      = DocumentStore.mk "d" 1 (some "a") 10 3 ∧
    (((DocumentStore.mk "d" 1 (some "a") 10 3).release_editor_lock
        "b").get_lock_status 4).2 = (some "a", true) := by
  have h := release_by_nonholder_noop (DocumentStore.mk "d" 1 (some "a") 10 3)
    "a" "b" 4 rfl (by decide) (by show (4 : ℚ) ≤ 10; norm_num)
  exact ⟨h.1, h.2.1⟩

theorem teardown_spec_witness :
    (teardown (DocumentStore.mk "d" 1 (some "a") 10 3)
        [("a", 1), ("b", 2)] "b").1 = DocumentStore.mk "d" 1 (some "a") 10 3 ∧
    (teardown (DocumentStore.mk "d" 1 (some "a") 10 3)
        [("a", 1), ("b", 2)] "b").2.2.1 = OutMsg.lockStatus false none ∧
    (2 : Nat) ∈ (teardown (DocumentStore.mk "d" 1 (some "a") 10 3)
        [("a", 1), ("b", 2)] "b").2.2.2 ∧
    ("b", 2) ∉ (teardown (DocumentStore.mk "d" 1 (some "a") 10 3)
        [("a", 1), ("b", 2)] "b").2.1 := by
  have h := teardown_spec (DocumentStore.mk "d" 1 (some "a") 10 3)
    [("a", 1), ("b", 2)] "b" "a" rfl (by decide)
  refine ⟨h.1, h.2.1, ?_, ?_⟩
  · exact (h.2.2.1 2).mpr ⟨"b", by simp⟩
  · intro hmem
    exact ((h.2.2.2 ("b", 2)).mp hmem).2 rfl

theorem broadcast_delivers_witness :
    (3 : Nat) ∈ broadcast [("a", 1), ("b", 2), ("c", 3)] (some 2)
      (fun ws => ws != 1) := by
  have h := broadcast_delivers [("a", 1), ("b", 2), ("c", 3)] (some 2)
    (fun ws => ws != 1)
  exact h.2.2 "c" 3 (by simp) (by decide) rfl

theorem apply_edit_non_replace_witness :
    (DocumentStore.mk "d" 1 (some "a") 10 3).apply_edit
        (JsonMsg.mk (some "insert") (some "x"))
      = (DocumentStore.mk "d" 1 (some "a") 10 3, ("d", 1)) :=
  apply_edit_non_replace (DocumentStore.mk "d" 1 (some "a") 10 3)
    (JsonMsg.mk (some "insert") (some "x")) (by decide)

theorem edit_missing_content_defaults_empty_witness :
    handleEdit (DocumentStore.mk "d" 1 none 0 3) "b"
        (JsonMsg.mk (some "edit") none) 4 2
      = (DocumentStore.mk "" 2 none 0 3, OutMsg.ack 2,
          some (OutMsg.documentMsg "" 2 2 none false)) ∧
    (DocumentStore.mk "d" 1 none 0 3).apply_edit
        (JsonMsg.mk (some "replace") none)
      = (DocumentStore.mk "" 2 none 0 3, ("", 2)) := by
  have h := edit_missing_content_defaults_empty (DocumentStore.mk "d" 1 none 0 3)
    "b" 4 2 (JsonMsg.mk (some "edit") none) rfl rfl
  exact ⟨h.1, h.2 (JsonMsg.mk (some "replace") none) rfl rfl⟩

end Colab
